import Mathlib

/-!
# Verification of the `rget` crawler core

Shallow embedding of `src/structures.rs` (FIFO queue, link tree with
breadth-first traversal) and `src/main.rs` (content classifier, link
extractor, breadth-limited crawl loop `get_urls`), with theorems settling
the specification claims.

Modelling conventions:
* The singly linked queue (`head`/`tail` `Rc<RefCell<QueueNode>>` chain in
  `structures.rs`) is modelled by the list of values stored in the chain
  from head to tail, together with the separately tracked `length` field of
  the Rust struct.  The head pointer of the Rust queue points to the first
  node of the chain and the tail pointer to the last, so "head pointer
  absent" is `items.head? = none` and "tail pointer absent" is
  `items.getLast? = none`.
* Rust `&str` values are Lean `String`s; `str::starts_with` is modelled on
  the character lists of the strings.
* The `Rc<RefCell<TreeNode>>` heap of the crawl is modelled as an arena: a
  list of nodes addressed by position, children stored as indices; the
  crawl frontier queue holds node indices (the Rust queue holds node
  references).
* Fetching the network is an external effect; the crawl loop takes an
  oracle `String → Page` describing, per URL, either a fetch failure
  (reqwest error or non-2xx status, on which the Rust code `unwrap`s) or a
  response consisting of an optional content-type header and a body.
* A Rust panic (`unwrap` on `Err`, `unreachable!`) is the `panic`
  constructor of the step/run result.
* Breadth-first functions are written with an explicit fuel argument so
  they stay structurally recursive; the canonical versions instantiate the
  fuel with the total node count, which the fuel-irrelevance lemmas show is
  always enough.
-/

namespace Rget

/-! ## Queue (src/structures.rs, lines 110-166) -/

/-- Model of `Queue<T>`: the chain of `QueueNode`s from the head pointer to
the tail pointer, as the list of their values, plus the separately stored
`length` field. -/
structure Queue (T : Type) where
  items : List T
  length : Nat
deriving Repr, DecidableEq

/-- Model of `Queue::default()`: both pointers `None`, length `0`. -/
def Queue.defaultQ {T : Type} : Queue T :=
  { items := [], length := 0 }

/-- Head pointer of the modelled queue: the first node of the chain, if
any. -/
def Queue.headPtr {T : Type} (q : Queue T) : Option T :=
  q.items.head?

/-- Tail pointer of the modelled queue: the last node of the chain, if
any. -/
def Queue.tailPtr {T : Type} (q : Queue T) : Option T :=
  q.items.getLast?

/-- Model of `Queue::push` (structures.rs:111-141): if both pointers are
`None` the new node becomes head and tail, otherwise it is linked after the
old tail; `length` is incremented in both branches. -/
def Queue.push {T : Type} (q : Queue T) (value : T) : Queue T :=
  if q.items.isEmpty then
    { items := [value], length := q.length + 1 }
  else
    { items := q.items ++ [value], length := q.length + 1 }

/-- Model of `Queue::pop` (structures.rs:142-162): on an empty queue return
`None` without touching any field; otherwise decrement `length`, unlink the
head node and return its value (the tail pointer is cleared when the chain
becomes empty, which in the list model is automatic). -/
def Queue.pop {T : Type} (q : Queue T) : Option T × Queue T :=
  match q.items with
  | [] => (none, q)
  | x :: rest => (some x, { items := rest, length := q.length - 1 })

/-- Model of `Queue::is_empty` (structures.rs:163-165): true iff both the
head and the tail pointer are `None`. -/
def Queue.is_empty {T : Type} (q : Queue T) : Bool :=
  q.headPtr.isNone && q.tailPtr.isNone

/-- Push a whole list of values in order (a sequence of `push` calls). -/
def Queue.pushAll {T : Type} (q : Queue T) (xs : List T) : Queue T :=
  xs.foldl Queue.push q

/-- Pop `n` times in sequence, collecting each result. -/
def Queue.popN {T : Type} (q : Queue T) : Nat → List (Option T) × Queue T
  | 0 => ([], q)
  | n + 1 =>
    let r := q.pop
    let rest := r.2.popN n
    (r.1 :: rest.1, rest.2)

/-- One queue operation, for reasoning about arbitrary op sequences. -/
inductive QOp (T : Type) where
  | push (v : T)
  | pop
deriving Repr, DecidableEq

/-- Apply a sequence of push/pop operations to a queue (the value returned
by a `pop` call is discarded, as when a caller drops the `Option`). -/
def Queue.applyOps {T : Type} (q : Queue T) : List (QOp T) → Queue T
  | [] => q
  | QOp.push v :: ops => (q.push v).applyOps ops
  | QOp.pop :: ops => q.pop.2.applyOps ops

/-! ## String prefix test (Rust `str::starts_with`) -/

/-- Test that the second character list is a leading segment of the
first. -/
def listLeads : List Char → List Char → Bool
  | _, [] => true
  | [], _ :: _ => false
  | c :: cs, d :: ds => c = d && listLeads cs ds

/-- Model of Rust `s.starts_with(p)` on Lean strings. -/
def strStartsWith (s p : String) : Bool :=
  listLeads s.data p.data

/-- Two character lists conflict when they differ at some position both of
them reach; no string can then lead with both. -/
def listsConflict : List Char → List Char → Bool
  | a :: ps, b :: qs => decide (a ≠ b) || listsConflict ps qs
  | _, _ => false

/-! ## Content classifier (src/main.rs, lines 60-121) -/

/-- Embedding of `TextType` (main.rs:61-71). -/
inductive TextType where
  | plain
  | html
  | css
  | javascript
  | xml
  | markdown
  | csv
  | richtext
  | tabSeparatedValues
deriving Repr, DecidableEq

/-- Embedding of `ContentType` (main.rs:73-78). -/
inductive ContentType where
  | text (t : TextType)
  | other (s : String)
  | unknown
deriving Repr, DecidableEq

/-- An HTTP header value as seen by `HeaderValue::to_str`: either a valid
text value or one that fails to decode. -/
inductive HeaderValue where
  | valid (s : String)
  | invalid
deriving Repr, DecidableEq

/-- The allow-listed media-type string that `from_header_value` tests for a
given text kind. -/
def TextType.prefixStr : TextType → String
  | .plain => "text/plain"
  | .html => "text/html"
  | .css => "text/css"
  | .javascript => "text/javascript"
  | .xml => "text/xml"
  | .markdown => "text/markdown"
  | .csv => "text/csv"
  | .richtext => "text/richtext"
  | .tabSeparatedValues => "text/tab-separated-values"

/-- Embedding of `ContentType::from_header_value` (main.rs:81-120): a
missing header or a value that fails `to_str` gives `Unknown`; a string
starting with an allow-listed `text/*` kind gives `Text` of that kind
(tested in source order); any other string gives `Other` carrying the raw
string. -/
def ContentType.from_header_value : Option HeaderValue → ContentType
  | none => ContentType.unknown
  | some HeaderValue.invalid => ContentType.unknown
  | some (HeaderValue.valid s) =>
    if strStartsWith s ("text/plain") then ContentType.text TextType.plain
    else if strStartsWith s ("text/html") then ContentType.text TextType.html
    else if strStartsWith s ("text/css") then ContentType.text TextType.css
    else if strStartsWith s ("text/javascript") then
      ContentType.text TextType.javascript
    else if strStartsWith s ("text/xml") then ContentType.text TextType.xml
    else if strStartsWith s ("text/markdown") then
      ContentType.text TextType.markdown
    else if strStartsWith s ("text/csv") then ContentType.text TextType.csv
    else if strStartsWith s ("text/richtext") then
      ContentType.text TextType.richtext
    else if strStartsWith s ("text/tab-separated-values") then
      ContentType.text TextType.tabSeparatedValues
    else ContentType.other s

/-! ## Link extractor (src/main.rs, lines 298-323; source name
`find_https_links_with_parser`) -/

/-- One element matched by the selector `body a[href], body img[src]`, with
the attribute values the extractor inspects.  The stream of matched
elements, in document order, stands for `document.select(&href_selector)`
of the external HTML parsing library. -/
structure Element where
  href : Option String
  src : Option String
deriving Repr, DecidableEq

/-- Embedding of the loop of `find_https_links_with_parser`
(main.rs:306-320): for each matched element in document order, a present
`href` attribute is kept when it starts with `https://` or `http://`;
otherwise a present `src` attribute is kept only when it starts with
`https://`. -/
def find_https_links : List Element → List String
  | [] => []
  | e :: rest =>
    (match e.href with
     | some href =>
       if strStartsWith href ("https://") || strStartsWith href ("http://")
       then [href]
       else []
     | none =>
       match e.src with
       | some src => if strStartsWith src ("https://") then [src] else []
       | none => []) ++ find_https_links rest

/-! ## Link tree (src/structures.rs, lines 12-108) -/

/-- A tree node as built by `TreeNode::new` and `Tree::push_node`: a value
and the ordered list of attached children.  The crawl attaches every
created node to exactly one parent, so the `Rc<RefCell<_>>` graph is a
proper tree and a rose tree is a faithful model of it. -/
inductive RNode (T : Type) where
  | mk (value : T) (children : List (RNode T))

/-- Value stored in a node. -/
def RNode.value {T : Type} : RNode T → T
  | .mk v _ => v

/-- Children of a node, in attachment order. -/
def RNode.children {T : Type} : RNode T → List (RNode T)
  | .mk _ cs => cs

mutual

/-- Number of nodes in a tree. -/
def RNode.size {T : Type} : RNode T → Nat
  | .mk _ cs => 1 + sizeForest cs

/-- Number of nodes in a forest. -/
def sizeForest {T : Type} : List (RNode T) → Nat
  | [] => 0
  | t :: ts => t.size + sizeForest ts

end

/-- Fuelled breadth-first enumeration.  The list argument is exactly the
contents of the `Queue` in `Tree::traverse` (structures.rs:70-88): the loop
pops the front node, re-enqueues its children at the back and visits the
popped value; by `Queue.push`/`Queue.pop` the queue contents are the head
list with children appended at the tail.  One unit of fuel is one loop
iteration; `sizeForest` of the initial queue is always enough. -/
def bfsF {T : Type} : Nat → List (RNode T) → List T
  | 0, _ => []
  | _ + 1, [] => []
  | fuel + 1, t :: rest => t.value :: bfsF fuel (rest ++ t.children)

/-- Breadth-first enumeration of a forest with sufficient fuel. -/
def bfsList {T : Type} (ts : List (RNode T)) : List T :=
  bfsF (sizeForest ts) ts

/-- Fuelled level-order enumeration following the spec's words: emit the
values of the whole current level, then recurse on the concatenation of all
children, level by level. -/
def levelOrderF {T : Type} : Nat → List (RNode T) → List T
  | 0, _ => []
  | _ + 1, [] => []
  | fuel + 1, t :: ts =>
    (t :: ts).map RNode.value ++
      levelOrderF fuel ((t :: ts).flatMap RNode.children)

/-- Level-order enumeration of a forest with sufficient fuel. -/
def levelOrder {T : Type} (ts : List (RNode T)) : List T :=
  levelOrderF (sizeForest ts) ts

mutual

/-- Structural (depth-first) enumeration of the nodes of a tree, used as
the reference multiset of nodes. -/
def RNode.preorderN {T : Type} : RNode T → List T
  | .mk v cs => v :: preForest cs

/-- Structural enumeration of the nodes of a forest. -/
def preForest {T : Type} : List (RNode T) → List T
  | [] => []
  | t :: ts => t.preorderN ++ preForest ts

end

/-- Embedding of `Tree<T>` (structures.rs:18-22): a root node and a depth
counter. -/
structure STree (T : Type) where
  root : RNode T
  depth : Nat

/-- Model of `Tree::traverse` (structures.rs:70-88): the sequence of values
passed to the visit closure, in visiting order.  The loop starts from a
queue holding only the root. -/
def STree.traverseList {T : Type} (t : STree T) : List T :=
  bfsList [t.root]

/-! ## Crawl engine (src/main.rs, lines 235-296, `get_urls`) -/

/-- Arena cell for one `TreeNode<String>` of the crawl: the URL value and
the indices of the attached children, in attachment order. -/
structure UrlNode where
  value : String
  children : List Nat
deriving Repr, DecidableEq

/-- Arena model of the crawl's `Tree<String>`: the created nodes addressed
by position (the root is node `0`) and the `depth` field. -/
structure UrlTree where
  nodes : List UrlNode
  depth : Nat
deriving Repr, DecidableEq

/-- Model of `Tree::push_node(parent, child)` (structures.rs:38-40) in the
arena: append the child index to the parent's children. -/
def pushChildAt : List UrlNode → Nat → Nat → List UrlNode
  | [], _, _ => []
  | n :: rest, 0, child =>
    { n with children := n.children ++ [child] } :: rest
  | n :: rest, p + 1, child => n :: pushChildAt rest p child

/-- Value of the arena node at an index (crawl indices are always in
range; out-of-range reads return a dummy). -/
def UrlTree.valueAt (t : UrlTree) (i : Nat) : String :=
  (t.nodes.getD i { value := "", children := [] }).value

/-- Result of fetching one URL, as the crawl loop observes it: `failure`
when `reqwest::get(..)` or `error_for_status()` fails (the code `unwrap`s
both), or a response carrying the optional `CONTENT_TYPE` header and the
body's matched elements. -/
inductive Page where
  | failure
  | success (header : Option HeaderValue) (body : List Element)
deriving Repr, DecidableEq

/-- Network oracle: what fetching each URL returns. -/
def Oracle : Type := String → Page

/-- State of the crawl loop of `get_urls` (main.rs:236-247): the tree under
construction, the frontier queue of node indices, and the level counters
`cur_width`, `next_width`, `cur_count`.  `fetched` is instrumentation
recording the URLs whose fetch completed, in order, to observe which
resources the loop actually requested. -/
structure CrawlState where
  tree : UrlTree
  q : Queue Nat
  cur_width : Nat
  next_width : Nat
  cur_count : Nat
  fetched : List String
deriving Repr, DecidableEq

/-- Outcome of one iteration of the crawl loop body: a successor state, or
a Rust panic. -/
inductive StepResult where
  | ok (s : CrawlState)
  | panic (msg : String)
deriving Repr, DecidableEq

/-- Embedding of the body of the `while` loop of `get_urls`
(main.rs:250-293).  Pop the frontier; increment `cur_count`; fetch the
node's URL (`unwrap` panics on failure); classify the content type.  On
`Text`: extract links, add their count to `next_width`, create and enqueue
a child node per link attaching it to the current node, then close the
level when `cur_width <= cur_count` (set `cur_width` to the updated
`next_width`, zero `next_width` and `cur_count`, increment depth).  On
`Other`: `continue`.  On `Unknown`: `unreachable!`. -/
def crawlStep (fetch : Oracle) (s : CrawlState) : StepResult :=
  match s.q.pop with
  | (none, _) => StepResult.ok s
  | (some cur, q1) =>
    let cur_count := s.cur_count + 1
    let current_url := s.tree.valueAt cur
    match fetch current_url with
    | Page.failure => StepResult.panic ("fetch unwrap")
    | Page.success header body =>
      match ContentType.from_header_value header with
      | ContentType.text _ =>
        let nodes := find_https_links body
        let next_width := s.next_width + nodes.length
        let acc := nodes.foldl
          (fun acc node =>
            let idx := acc.1.length
            let ns := acc.1 ++ [{ value := node, children := [] }]
            (pushChildAt ns cur idx, acc.2.push idx))
          (s.tree.nodes, q1)
        if s.cur_width ≤ cur_count then
          StepResult.ok
            { tree := { nodes := acc.1, depth := s.tree.depth + 1 },
              q := acc.2,
              cur_width := next_width, next_width := 0, cur_count := 0,
              fetched := s.fetched ++ [current_url] }
        else
          StepResult.ok
            { tree := { nodes := acc.1, depth := s.tree.depth },
              q := acc.2,
              cur_width := s.cur_width, next_width := next_width,
              cur_count := cur_count,
              fetched := s.fetched ++ [current_url] }
      | ContentType.other _ =>
        StepResult.ok
          { s with q := q1, cur_count := cur_count,
                   fetched := s.fetched ++ [current_url] }
      | ContentType.unknown =>
        StepResult.panic ("unreachable: the header should work")

/-- Outcome of running the crawl loop: normal termination with the final
state, a Rust panic, or fuel exhaustion (never reached with enough
fuel). -/
inductive RunResult where
  | done (s : CrawlState)
  | panic (msg : String)
  | outOfFuel (s : CrawlState)
deriving Repr, DecidableEq

/-- Embedding of the `while` loop of `get_urls` (main.rs:248):
`while !q.is_empty() && max_depth > url_tree.depth`, one fuel unit per
iteration. -/
def crawlLoop (fetch : Oracle) (max_depth : Nat) :
    Nat → CrawlState → RunResult
  | 0, s => RunResult.outOfFuel s
  | fuel + 1, s =>
    if s.q.is_empty = false ∧ max_depth > s.tree.depth then
      match crawlStep fetch s with
      | StepResult.ok s1 => crawlLoop fetch max_depth fuel s1
      | StepResult.panic msg => RunResult.panic msg
    else RunResult.done s

/-- Initial crawl state (main.rs:236-242): counters `cur_width`,
`next_width`, `cur_count` all start at `1`; the tree is a single root node
at depth `1` (`Tree::new`, structures.rs:90-98); the root is pushed onto
the frontier queue. -/
def initState (root_url : String) : CrawlState :=
  { tree := { nodes := [{ value := root_url, children := [] }], depth := 1 },
    q := Queue.defaultQ.push 0,
    cur_width := 1, next_width := 1, cur_count := 1, fetched := [] }

/-- Embedding of `get_urls` (main.rs:235-296). -/
def get_urls (fetch : Oracle) (fuel : Nat) (root_url : String)
    (max_depth : Nat) : RunResult :=
  crawlLoop fetch max_depth fuel (initState root_url)

/-- Classification of the response the oracle returns for the node at
index `cur` (`none` when the fetch itself fails). -/
def classifyAt (fetch : Oracle) (s : CrawlState) (cur : Nat) :
    Option ContentType :=
  match fetch (s.tree.valueAt cur) with
  | Page.failure => none
  | Page.success header _ => some (ContentType.from_header_value header)

/-- Links the extractor finds in the response body for the node at index
`cur` (empty when the fetch fails). -/
def linksAt (fetch : Oracle) (s : CrawlState) (cur : Nat) : List String :=
  match fetch (s.tree.valueAt cur) with
  | Page.failure => []
  | Page.success _ body => find_https_links body

/-! ## Concrete crawl scenarios for the claims about `get_urls` -/

/-- Oracle on which every response lacks a content-type header. -/
def fetchNoHeader : Oracle := fun _ => Page.success none []

/-- Oracle for the fetch-failure scenario: the root is a text page linking
to one child URL, and fetching that child fails. -/
def fetchChildFails : Oracle := fun u =>
  if u = "http://r" then
    Page.success (some (HeaderValue.valid ("text/html")))
      [{ href := some ("http://a"), src := none }]
  else Page.failure

/-- Oracle for the level-accounting scenario: the probed URL declares a
non-text content type. -/
def fetchOtherCT : Oracle := fun u =>
  if u = "http://b" then
    Page.success (some (HeaderValue.valid ("application/json"))) []
  else Page.failure

/-- Mid-crawl state for the level-accounting scenario: the root produced
two children at the current level of width `2`, one of which has been
processed (`cur_count = 1`); the node left on the frontier, index `2`, is
next. -/
def stateOtherCT : CrawlState :=
  { tree :=
      { nodes :=
          [{ value := "http://r", children := [1, 2] },
           { value := "http://a", children := [] },
           { value := "http://b", children := [] }],
        depth := 2 },
    q := { items := [2], length := 1 },
    cur_width := 2, next_width := 0, cur_count := 1,
    fetched := ["http://r", "http://a"] }

/-- State after processing node `2` of `stateOtherCT`: classified `Other`,
so only the queue, `cur_count` and the fetch log change. -/
def stateOtherCT1 : CrawlState :=
  { tree :=
      { nodes :=
          [{ value := "http://r", children := [1, 2] },
           { value := "http://a", children := [] },
           { value := "http://b", children := [] }],
        depth := 2 },
    q := { items := [], length := 0 },
    cur_width := 2, next_width := 0, cur_count := 2,
    fetched := ["http://r", "http://a", "http://b"] }

end Rget

namespace Rget

/-! ## Queue lemmas -/

theorem Queue.push_items {T : Type} (q : Queue T) (v : T) :
    (q.push v).items = q.items ++ [v] := by
  unfold Queue.push
  cases h : q.items <;> simp [h]

theorem Queue.push_length {T : Type} (q : Queue T) (v : T) :
    (q.push v).length = q.length + 1 := by
  unfold Queue.push
  split <;> rfl

theorem Queue.pushAll_items {T : Type} (q : Queue T) (xs : List T) :
    (q.pushAll xs).items = q.items ++ xs := by
  induction xs generalizing q with
  | nil => simp [Queue.pushAll]
  | cons x xs ih =>
    simp [Queue.pushAll] at ih ⊢
    rw [ih, Queue.push_items, List.append_assoc]
    rfl

theorem Queue.popN_full {T : Type} (q : Queue T) (xs : List T)
    (h : q.items = xs) : (q.popN xs.length).1 = xs.map some := by
  induction xs generalizing q with
  | nil => simp [Queue.popN]
  | cons x xs ih =>
    simp only [List.length_cons, Queue.popN, Queue.pop, h, List.map_cons]
    exact congrArg (some x :: ·) (ih _ rfl)

/-- The tracked `length` field agrees with the number of nodes in the chain
for every queue reachable from the default queue by pushes and pops. -/
theorem Queue.applyOps_length_inv {T : Type} (q : Queue T)
    (hq : q.length = q.items.length) (ops : List (QOp T)) :
    (q.applyOps ops).length = (q.applyOps ops).items.length := by
  induction ops generalizing q with
  | nil => exact hq
  | cons op ops ih =>
    cases op with
    | push v =>
      refine ih _ ?_
      rw [Queue.push_length, Queue.push_items, List.length_append, hq]
      rfl
    | pop =>
      refine ih _ ?_
      unfold Queue.pop
      cases h : q.items with
      | nil => simpa [h] using hq
      | cons x rest =>
        simp only
        rw [hq, h]
        simp

/-! ## Claims C7, C9, C10 -/

/-- C7: for every element type, every N, and every sequence of N values,
pushing all N values onto an initially empty `Queue<T>` and then popping N
times yields exactly the pushed values, in push order (FIFO). -/
theorem c7_queue_fifo {T : Type} (xs : List T) :
    ((Queue.defaultQ.pushAll xs).popN xs.length).1 = xs.map some := by
  refine Queue.popN_full _ xs ?_
  rw [Queue.pushAll_items]
  rfl

/-- C9: after any sequence of push and pop operations starting from the
default queue, `is_empty()` is true iff `length` is `0`; and popping a
queue holding exactly one element leaves both the head and the tail
pointer absent. -/
theorem c9_isEmpty_iff_length_zero {T : Type} (ops : List (QOp T)) :
    ((Queue.defaultQ.applyOps ops).is_empty = true ↔
      (Queue.defaultQ.applyOps ops).length = 0) ∧
    ((Queue.defaultQ.applyOps ops).length = 1 →
      ((Queue.defaultQ.applyOps ops).pop.2.headPtr = none ∧
       (Queue.defaultQ.applyOps ops).pop.2.tailPtr = none)) := by
  have hinv := Queue.applyOps_length_inv (Queue.defaultQ (T := T)) rfl ops
  set q := Queue.defaultQ.applyOps ops with hq
  constructor
  · rw [hinv]
    unfold Queue.is_empty Queue.headPtr Queue.tailPtr
    cases h : q.items <;> simp [h]
  · intro h1
    rw [hinv, List.length_eq_one] at h1
    obtain ⟨x, hx⟩ := h1
    unfold Queue.pop
    rw [hx]
    simp [Queue.headPtr, Queue.tailPtr]

/-- Witness for C9 at the concrete op sequence `[push 5]`. -/
theorem c9_isEmpty_iff_length_zero_witness :
    ((Queue.defaultQ.applyOps [QOp.push (5 : Nat)]).pop.2.headPtr = none ∧
     (Queue.defaultQ.applyOps [QOp.push (5 : Nat)]).pop.2.tailPtr = none) :=
  (c9_isEmpty_iff_length_zero [QOp.push (5 : Nat)]).2 (by decide)

/-- C10: calling `pop()` on an empty queue returns `None` and leaves the
queue completely unchanged (head, tail and the `length` counter exactly as
before; the early return happens before `length -= 1`, so no underflow). -/
theorem c10_pop_empty_unchanged {T : Type} (q : Queue T)
    (h : q.is_empty = true) : q.pop = (none, q) := by
  unfold Queue.is_empty Queue.headPtr Queue.tailPtr at h
  unfold Queue.pop
  cases hi : q.items with
  | nil => rfl
  | cons x rest => rw [hi] at h; simp at h

/-- Witness for C10 at the concrete empty queue of naturals. -/
theorem c10_pop_empty_unchanged_witness :
    (Queue.defaultQ : Queue Nat).pop = (none, Queue.defaultQ) :=
  c10_pop_empty_unchanged Queue.defaultQ (by decide)

/-! ## String prefix lemmas -/

theorem listLeads_of_conflict {p q s : List Char}
    (hc : listsConflict p q = true) (hp : listLeads s p = true) :
    listLeads s q = false := by
  induction p generalizing q s with
  | nil => cases q <;> simp [listsConflict] at hc
  | cons a ps ih =>
    cases q with
    | nil => simp [listsConflict] at hc
    | cons b qs =>
      cases s with
      | nil => simp [listLeads] at hp
      | cons c cs =>
        simp only [listsConflict, Bool.or_eq_true, decide_eq_true_eq] at hc
        simp only [listLeads, Bool.and_eq_true, decide_eq_true_eq] at hp
        rcases hc with hab | hc
        · have hcb : c ≠ b := by rw [hp.1]; exact hab
          simp [listLeads, hcb]
        · simp [listLeads, ih hc hp.2]

/-- A string starting with `p` does not start with any `q` conflicting
with `p`. -/
theorem strStartsWith_conflict {s p q : String}
    (hc : listsConflict p.data q.data = true)
    (hp : strStartsWith s p = true) : strStartsWith s q = false :=
  listLeads_of_conflict hc hp

/-! ## Claim C6 -/

/-- C6: the classifier maps a missing header or an undecodable value to
`Unknown`; a declared media-type string starting with an allow-listed
`text/*` kind to `Text` of that kind; any other declared string to `Other`
preserving the raw string.  In particular `"text/html; charset=utf-8"`
classifies as `Text(Html)` and `"application/json"` as
`Other("application/json")`. -/
theorem c6_classifier :
    (ContentType.from_header_value none = ContentType.unknown) ∧
    (ContentType.from_header_value (some HeaderValue.invalid) =
      ContentType.unknown) ∧
    (∀ s t, strStartsWith s (TextType.prefixStr t) = true →
      ContentType.from_header_value (some (HeaderValue.valid s)) =
        ContentType.text t) ∧
    (∀ s, (∀ t, strStartsWith s (TextType.prefixStr t) = false) →
      ContentType.from_header_value (some (HeaderValue.valid s)) =
        ContentType.other s) ∧
    (ContentType.from_header_value
        (some (HeaderValue.valid ("text/html; charset=utf-8"))) =
      ContentType.text TextType.html) ∧
    (ContentType.from_header_value
        (some (HeaderValue.valid ("application/json"))) =
      ContentType.other ("application/json")) := by
  refine ⟨rfl, rfl, ?_, ?_, by decide, by decide⟩
  · intro s t h
    cases t <;> simp only [TextType.prefixStr] at h
    case plain => simp [ContentType.from_header_value, h]
    case html =>
      have h1 := strStartsWith_conflict (q := "text/plain") (by decide) h
      simp [ContentType.from_header_value, h, h1]
    case css =>
      have h1 := strStartsWith_conflict (q := "text/plain") (by decide) h
      have h2 := strStartsWith_conflict (q := "text/html") (by decide) h
      simp [ContentType.from_header_value, h, h1, h2]
    case javascript =>
      have h1 := strStartsWith_conflict (q := "text/plain") (by decide) h
      have h2 := strStartsWith_conflict (q := "text/html") (by decide) h
      have h3 := strStartsWith_conflict (q := "text/css") (by decide) h
      simp [ContentType.from_header_value, h, h1, h2, h3]
    case xml =>
      have h1 := strStartsWith_conflict (q := "text/plain") (by decide) h
      have h2 := strStartsWith_conflict (q := "text/html") (by decide) h
      have h3 := strStartsWith_conflict (q := "text/css") (by decide) h
      have h4 := strStartsWith_conflict (q := "text/javascript") (by decide) h
      simp [ContentType.from_header_value, h, h1, h2, h3, h4]
    case markdown =>
      have h1 := strStartsWith_conflict (q := "text/plain") (by decide) h
      have h2 := strStartsWith_conflict (q := "text/html") (by decide) h
      have h3 := strStartsWith_conflict (q := "text/css") (by decide) h
      have h4 := strStartsWith_conflict (q := "text/javascript") (by decide) h
      have h5 := strStartsWith_conflict (q := "text/xml") (by decide) h
      simp [ContentType.from_header_value, h, h1, h2, h3, h4, h5]
    case csv =>
      have h1 := strStartsWith_conflict (q := "text/plain") (by decide) h
      have h2 := strStartsWith_conflict (q := "text/html") (by decide) h
      have h3 := strStartsWith_conflict (q := "text/css") (by decide) h
      have h4 := strStartsWith_conflict (q := "text/javascript") (by decide) h
      have h5 := strStartsWith_conflict (q := "text/xml") (by decide) h
      have h6 := strStartsWith_conflict (q := "text/markdown") (by decide) h
      simp [ContentType.from_header_value, h, h1, h2, h3, h4, h5, h6]
    case richtext =>
      have h1 := strStartsWith_conflict (q := "text/plain") (by decide) h
      have h2 := strStartsWith_conflict (q := "text/html") (by decide) h
      have h3 := strStartsWith_conflict (q := "text/css") (by decide) h
      have h4 := strStartsWith_conflict (q := "text/javascript") (by decide) h
      have h5 := strStartsWith_conflict (q := "text/xml") (by decide) h
      have h6 := strStartsWith_conflict (q := "text/markdown") (by decide) h
      have h7 := strStartsWith_conflict (q := "text/csv") (by decide) h
      simp [ContentType.from_header_value, h, h1, h2, h3, h4, h5, h6, h7]
    case tabSeparatedValues =>
      have h1 := strStartsWith_conflict (q := "text/plain") (by decide) h
      have h2 := strStartsWith_conflict (q := "text/html") (by decide) h
      have h3 := strStartsWith_conflict (q := "text/css") (by decide) h
      have h4 := strStartsWith_conflict (q := "text/javascript") (by decide) h
      have h5 := strStartsWith_conflict (q := "text/xml") (by decide) h
      have h6 := strStartsWith_conflict (q := "text/markdown") (by decide) h
      have h7 := strStartsWith_conflict (q := "text/csv") (by decide) h
      have h8 := strStartsWith_conflict (q := "text/richtext") (by decide) h
      simp [ContentType.from_header_value, h, h1, h2, h3, h4, h5, h6, h7, h8]
  · intro s hall
    have hp := hall TextType.plain
    have hh := hall TextType.html
    have hc := hall TextType.css
    have hj := hall TextType.javascript
    have hx := hall TextType.xml
    have hm := hall TextType.markdown
    have hv := hall TextType.csv
    have hr := hall TextType.richtext
    have ht := hall TextType.tabSeparatedValues
    simp only [TextType.prefixStr] at hp hh hc hj hx hm hv hr ht
    simp [ContentType.from_header_value, hp, hh, hc, hj, hx, hm, hv, hr, ht]

/-- Witness for C6: the allow-list clause at `"text/css; charset=x"` and
the other-type clause at `"image/png"`. -/
theorem c6_classifier_witness :
    (ContentType.from_header_value
        (some (HeaderValue.valid ("text/css; charset=x"))) =
      ContentType.text TextType.css) ∧
    (ContentType.from_header_value
        (some (HeaderValue.valid ("image/png"))) =
      ContentType.other ("image/png")) :=
  ⟨c6_classifier.2.2.1 ("text/css; charset=x") TextType.css (by decide),
   c6_classifier.2.2.2.1 ("image/png") (by intro t; cases t <;> decide)⟩

/-! ## Claim C4 -/

/-- C4 counterexample: an `img` whose `src` begins with `http://` is NOT
kept by the extractor — the `src` arm tests only for `https://` — whereas
the claim says such a `src` is also kept. -/
theorem c4_counterexample :
    strStartsWith ("http://a/x.png") ("http://") = true ∧
    find_https_links
      [{ href := none, src := some ("http://a/x.png") }] = [] := by
  decide

/-- C4 amended: the extractor returns, in document order and keeping
duplicates, the anchor `href` values that begin with `http://` or
`https://` together with the `img` `src` values that begin with
`https://`; an `img` `src` beginning with `http://`, any other scheme, and
relative references are silently dropped.  On the spec's example body it
yields exactly `["https://a/1", "http://a/2"]` in that order. -/
theorem c4_extractor_amended :
    (find_https_links
      [{ href := some ("https://a/1"), src := none },
       { href := none, src := some ("/local.png") },
       { href := some ("http://a/2"), src := none }] =
      ["https://a/1", "http://a/2"]) ∧
    (∀ es fs, find_https_links (es ++ fs) =
      find_https_links es ++ find_https_links fs) ∧
    (∀ h o, (strStartsWith h ("https://") || strStartsWith h ("http://"))
        = true →
      find_https_links [{ href := some h, src := o }] = [h]) ∧
    (∀ h o, (strStartsWith h ("https://") || strStartsWith h ("http://"))
        = false →
      find_https_links [{ href := some h, src := o }] = []) ∧
    (∀ u, strStartsWith u ("https://") = true →
      find_https_links [{ href := none, src := some u }] = [u]) ∧
    (∀ u, strStartsWith u ("https://") = false →
      find_https_links [{ href := none, src := some u }] = []) := by
  refine ⟨by decide, ?_, ?_, ?_, ?_, ?_⟩
  · intro es fs
    induction es with
    | nil => simp [find_https_links]
    | cons e rest ih =>
      simp [find_https_links, ih]
  · intro h o hh
    simp [find_https_links, hh]
  · intro h o hh
    simp only [Bool.or_eq_false_iff] at hh
    simp [find_https_links, hh.1, hh.2]
  · intro u hu
    simp [find_https_links, hu]
  · intro u hu
    simp [find_https_links, hu]

/-- Witness for C4 amended: a kept `http://` anchor and a kept `https://`
image source. -/
theorem c4_extractor_amended_witness :
    (find_https_links
      [{ href := some ("http://x"), src := none }] = ["http://x"]) ∧
    (find_https_links
      [{ href := none, src := some ("https://y") }] = ["https://y"]) :=
  ⟨c4_extractor_amended.2.2.1 ("http://x") none (by decide),
   c4_extractor_amended.2.2.2.2.1 ("https://y") (by decide)⟩

/-! ## Tree size lemmas -/

theorem RNode.size_eq {T : Type} (t : RNode T) :
    t.size = 1 + sizeForest t.children := by
  cases t
  rfl

theorem sizeForest_cons {T : Type} (t : RNode T) (ts : List (RNode T)) :
    sizeForest (t :: ts) = t.size + sizeForest ts := rfl

theorem sizeForest_append {T : Type} (a b : List (RNode T)) :
    sizeForest (a ++ b) = sizeForest a + sizeForest b := by
  induction a with
  | nil => simp [sizeForest]
  | cons t ts ih =>
    simp [sizeForest_cons, ih]
    omega

theorem RNode.size_pos {T : Type} (t : RNode T) : 1 ≤ t.size := by
  rw [RNode.size_eq]
  omega

/-- Dropping the roots of a forest removes exactly one node per root. -/
theorem sizeForest_level {T : Type} (ts : List (RNode T)) :
    sizeForest (ts.flatMap RNode.children) + ts.length = sizeForest ts := by
  induction ts with
  | nil => rfl
  | cons t ts ih =>
    simp only [List.flatMap_cons, sizeForest_append, sizeForest_cons,
      RNode.size_eq, List.length_cons]
    omega

/-! ## Breadth-first enumeration lemmas -/

/-- Fuel irrelevance: any fuel at least the node count gives the same
breadth-first enumeration. -/
theorem bfsF_congr {T : Type} :
    ∀ (f1 f2 : Nat) (ts : List (RNode T)), sizeForest ts ≤ f1 →
      sizeForest ts ≤ f2 → bfsF f1 ts = bfsF f2 ts := by
  intro f1
  induction f1 with
  | zero =>
    intro f2 ts h1 h2
    cases ts with
    | nil => cases f2 <;> rfl
    | cons t rest =>
      exfalso
      have := RNode.size_pos t
      rw [sizeForest_cons] at h1
      omega
  | succ f1 ih =>
    intro f2 ts h1 h2
    cases ts with
    | nil => cases f2 <;> rfl
    | cons t rest =>
      have hpos := RNode.size_pos t
      cases f2 with
      | zero =>
        exfalso
        rw [sizeForest_cons] at h2
        omega
      | succ f2 =>
        show t.value :: bfsF f1 (rest ++ t.children) =
          t.value :: bfsF f2 (rest ++ t.children)
        have hs : sizeForest (rest ++ t.children) + 1 =
            sizeForest (t :: rest) := by
          rw [sizeForest_append, sizeForest_cons, RNode.size_eq]
          omega
        rw [sizeForest_cons] at h1 h2 hs
        exact congrArg _ (ih f2 _ (by omega) (by omega))

/-- Unfolding equation of `bfsList` on a nonempty queue. -/
theorem bfsList_cons {T : Type} (t : RNode T) (rest : List (RNode T)) :
    bfsList (t :: rest) = t.value :: bfsList (rest ++ t.children) := by
  have hs : sizeForest (t :: rest) =
      sizeForest (rest ++ t.children) + 1 := by
    rw [sizeForest_append, sizeForest_cons, RNode.size_eq]
    omega
  rw [bfsList, hs]
  rfl

/-- Processing a leading block of the queue emits its values and requeues
its children after the remainder. -/
theorem bfsList_split {T : Type} (xs ys : List (RNode T)) :
    bfsList (xs ++ ys) =
      xs.map RNode.value ++ bfsList (ys ++ xs.flatMap RNode.children) := by
  induction xs generalizing ys with
  | nil => simp
  | cons t xs ih =>
    rw [List.cons_append, bfsList_cons]
    rw [List.append_assoc, ih (ys ++ t.children)]
    simp [List.append_assoc]

/-- The queue-based enumeration emits the current queue's values and then
the enumeration of all their children. -/
theorem bfsList_level {T : Type} (ts : List (RNode T)) :
    bfsList ts = ts.map RNode.value ++ bfsList (ts.flatMap RNode.children)
    := by
  have h := bfsList_split ts []
  simpa using h

/-- Fuel irrelevance for the level-order enumeration. -/
theorem levelOrderF_congr {T : Type} :
    ∀ (f1 f2 : Nat) (ts : List (RNode T)), sizeForest ts ≤ f1 →
      sizeForest ts ≤ f2 → levelOrderF f1 ts = levelOrderF f2 ts := by
  intro f1
  induction f1 with
  | zero =>
    intro f2 ts h1 h2
    cases ts with
    | nil => cases f2 <;> rfl
    | cons t rest =>
      exfalso
      have := RNode.size_pos t
      rw [sizeForest_cons] at h1
      omega
  | succ f1 ih =>
    intro f2 ts h1 h2
    cases ts with
    | nil => cases f2 <;> rfl
    | cons t rest =>
      have hpos := RNode.size_pos t
      cases f2 with
      | zero =>
        exfalso
        rw [sizeForest_cons] at h2
        omega
      | succ f2 =>
        show (t :: rest).map RNode.value ++
            levelOrderF f1 ((t :: rest).flatMap RNode.children) =
          (t :: rest).map RNode.value ++
            levelOrderF f2 ((t :: rest).flatMap RNode.children)
        have hs := sizeForest_level (t :: rest)
        simp only [List.length_cons] at hs
        rw [sizeForest_cons] at hs h1 h2
        exact congrArg _ (ih f2 _ (by omega) (by omega))

/-- Unfolding equation of `levelOrder` on a nonempty forest. -/
theorem levelOrder_cons {T : Type} (t : RNode T) (ts : List (RNode T)) :
    levelOrder (t :: ts) =
      (t :: ts).map RNode.value ++
        levelOrder ((t :: ts).flatMap RNode.children) := by
  have hs := sizeForest_level (t :: ts)
  simp only [List.length_cons] at hs
  have hpos := RNode.size_pos t
  rw [sizeForest_cons] at hs
  obtain ⟨k, hk⟩ : ∃ k, sizeForest (t :: ts) = k + 1 := by
    rw [sizeForest_cons]
    exact ⟨t.size + sizeForest ts - 1, by omega⟩
  rw [levelOrder, hk]
  show (t :: ts).map RNode.value ++
      levelOrderF k ((t :: ts).flatMap RNode.children) = _
  rw [levelOrder]
  refine congrArg _ (levelOrderF_congr k _ _ ?_ le_rfl)
  rw [sizeForest_cons] at hk
  omega

/-- Queue-based breadth-first enumeration equals the level-by-level
enumeration. -/
theorem bfsList_eq_levelOrder {T : Type} :
    ∀ (n : Nat) (ts : List (RNode T)), sizeForest ts ≤ n →
      bfsList ts = levelOrder ts := by
  intro n
  induction n with
  | zero =>
    intro ts h
    cases ts with
    | nil => rfl
    | cons t rest =>
      exfalso
      have := RNode.size_pos t
      rw [sizeForest_cons] at h
      omega
  | succ n ih =>
    intro ts h
    cases ts with
    | nil => rfl
    | cons t rest =>
      rw [bfsList_level (t :: rest), levelOrder_cons]
      have hs := sizeForest_level (t :: rest)
      have hle : sizeForest ((t :: rest).flatMap RNode.children) ≤ n := by
        simp only [List.length_cons] at hs
        omega
      rw [ih _ hle]

theorem RNode.preorderN_eq {T : Type} (t : RNode T) :
    t.preorderN = t.value :: preForest t.children := by
  cases t
  rfl

theorem preForest_append {T : Type} (a b : List (RNode T)) :
    preForest (a ++ b) = preForest a ++ preForest b := by
  induction a with
  | nil => rfl
  | cons t ts ih => simp [preForest, ih]

/-- One level of values followed by the structural enumeration of the
children is a permutation of the structural enumeration of the forest. -/
theorem map_pre_perm {T : Type} (ts : List (RNode T)) :
    (ts.map RNode.value ++ preForest (ts.flatMap RNode.children)).Perm
      (preForest ts) := by
  induction ts with
  | nil => rfl
  | cons t ts ih =>
    simp only [List.map_cons, List.flatMap_cons, preForest_append, preForest,
      RNode.preorderN_eq, List.cons_append]
    refine List.Perm.cons t.value ?_
    have h1 : (List.map RNode.value ts ++
        (preForest t.children ++ preForest (ts.flatMap RNode.children))).Perm
        (preForest t.children ++
          (List.map RNode.value ts ++
            preForest (ts.flatMap RNode.children))) := by
      rw [← List.append_assoc, ← List.append_assoc]
      exact List.perm_append_comm.append_right _
    refine h1.trans ?_
    exact List.Perm.append_left _ ih

/-- The breadth-first enumeration is a permutation of the structural node
enumeration: every node appears exactly once. -/
theorem bfsList_perm_preForest {T : Type} :
    ∀ (n : Nat) (ts : List (RNode T)), sizeForest ts ≤ n →
      (bfsList ts).Perm (preForest ts) := by
  intro n
  induction n with
  | zero =>
    intro ts h
    cases ts with
    | nil => simp [bfsList, bfsF, preForest]
    | cons t rest =>
      exfalso
      have := RNode.size_pos t
      rw [sizeForest_cons] at h
      omega
  | succ n ih =>
    intro ts h
    cases ts with
    | nil => simp [bfsList, bfsF, preForest]
    | cons t rest =>
      rw [bfsList_level (t :: rest)]
      have hs := sizeForest_level (t :: rest)
      have hle : sizeForest ((t :: rest).flatMap RNode.children) ≤ n := by
        simp only [List.length_cons] at hs
        omega
      exact (List.Perm.append_left _ (ih _ hle)).trans
        (map_pre_perm (t :: rest))

/-! ## Claim C8 -/

/-- C8: `traverse` applies the visit function to every node exactly once,
in level order — the visit sequence equals the level-by-level enumeration
of the tree (each parent's whole level before the next level, siblings in
attachment order), and is a permutation of the structural node
enumeration. -/
theorem c8_traverse_level_order {T : Type} (t : STree T) :
    t.traverseList = levelOrder [t.root] ∧
    t.traverseList.Perm t.root.preorderN := by
  constructor
  · exact bfsList_eq_levelOrder (sizeForest [t.root]) [t.root] le_rfl
  · have h := bfsList_perm_preForest (sizeForest [t.root]) [t.root] le_rfl
    simpa [preForest] using h

end Rget

namespace Rget

/-- C1: the claim says the Unknown branch of the crawl step is a handled
terminal case that does not fault.  The code instead marks it
`unreachable!`: on an oracle whose responses carry no content-type header
(classification `Unknown`), the whole crawl panics with the
`unreachable!` message — the code bug the spec warns about. -/
theorem c1_unknown_code_bug :
    ContentType.from_header_value none = ContentType.unknown ∧
    get_urls fetchNoHeader 2 ("http://r") 2 =
      RunResult.panic ("unreachable: the header should work") := by
  decide

/-- C2: the claim says a crawl with `maxDepth = 0` still fetches and
classifies the root while producing a tree with zero children.  In the
code the loop guard `max_depth > url_tree.depth` fails immediately (depth
starts at `1`), so for every oracle the run ends at once with the initial
state: the tree is indeed the bare root with zero children, but the fetch
log is empty — the root is never fetched or classified. -/
theorem c2_depth_zero_code_bug (fetch : Oracle) (fuel : Nat)
    (root_url : String) :
    get_urls fetch (fuel + 1) root_url 0 =
      RunResult.done (initState root_url) ∧
    (initState root_url).fetched = [] ∧
    (initState root_url).tree.nodes =
      [{ value := root_url, children := [] }] ∧
    (initState root_url).tree.depth = 1 := by
  refine ⟨?_, rfl, rfl, rfl⟩
  show crawlLoop fetch 0 (fuel + 1) (initState root_url) =
    RunResult.done (initState root_url)
  rw [crawlLoop]
  rw [if_neg]
  intro h
  have h2 := h.2
  simp [initState] at h2

/-- C3 counterexample: a fetch failure on a NON-root frontier node aborts
the whole crawl instead of being handled locally.  The root fetch
succeeds as a text page linking to one child, the child's fetch fails,
and the run panics — refuting the claim that only a root fetch failure
aborts. -/
theorem c3_counterexample :
    fetchChildFails ("http://r") =
      Page.success (some (HeaderValue.valid ("text/html")))
        [{ href := some ("http://a"), src := none }] ∧
    fetchChildFails ("http://a") = Page.failure ∧
    get_urls fetchChildFails 5 ("http://r") 3 =
      RunResult.panic ("fetch unwrap") := by
  decide

/-- C3 amended: a fetch failure (network error or non-2xx status) on ANY
frontier node — root or not — aborts the whole crawl: the loop body
`unwrap`s the fetch result, so whenever the popped node's fetch fails the
step panics. -/
theorem c3_fetch_failure_aborts (fetch : Oracle) (s : CrawlState)
    (cur : Nat) (q1 : Queue Nat) (hpop : s.q.pop = (some cur, q1))
    (hfail : fetch (s.tree.valueAt cur) = Page.failure) :
    crawlStep fetch s = StepResult.panic ("fetch unwrap") := by
  unfold crawlStep
  rw [hpop]
  simp only [hfail]

/-- Witness for C3 amended: stepping the initial state under an oracle
that always fails. -/
theorem c3_fetch_failure_aborts_witness :
    crawlStep (fun _ => Page.failure) (initState ("http://r")) =
      StepResult.panic ("fetch unwrap") :=
  c3_fetch_failure_aborts _ _ 0 { items := [], length := 0 } rfl rfl

/-- C5 counterexample: a frontier node classified `Other` whose
processing brings `cur_count` up to `cur_width` does NOT close the level
— the step leaves depth, `cur_width` and `next_width` unchanged and
`cur_count` un-reset, because the level-close check sits only in the
`Text` branch, refuting the claim that the level closes whenever the
processed count reaches the level width. -/
theorem c5_counterexample :
    crawlStep fetchOtherCT stateOtherCT = StepResult.ok stateOtherCT1 ∧
    stateOtherCT1.cur_count = stateOtherCT.cur_width ∧
    stateOtherCT1.tree.depth = stateOtherCT.tree.depth ∧
    stateOtherCT1.cur_width = stateOtherCT.cur_width ∧
    stateOtherCT1.next_width = stateOtherCT.next_width ∧
    stateOtherCT1.cur_count ≠ 0 := by
  decide

/-- C5 amended: every processed frontier node increments the
processed-in-level count, but the level-close check runs only after a
`Text`-classified node.  A node classified `Other` only increments
`cur_count` and never closes the level.  After a `Text` node, if the
incremented count has reached `cur_width`, the level closes exactly as
the spec's rule says: depth is incremented by one, `cur_width` is set to
`next_width` updated with this node's link count, and `next_width` and
`cur_count` are reset to zero; otherwise the counters just advance. -/
theorem c5_level_accounting_amended (fetch : Oracle) (s : CrawlState)
    (cur : Nat) (q1 : Queue Nat) (hpop : s.q.pop = (some cur, q1))
    (out : CrawlState) (hout : crawlStep fetch s = StepResult.ok out) :
    (∀ str, classifyAt fetch s cur = some (ContentType.other str) →
      out.tree.depth = s.tree.depth ∧ out.cur_width = s.cur_width ∧
      out.next_width = s.next_width ∧ out.cur_count = s.cur_count + 1) ∧
    (∀ t, classifyAt fetch s cur = some (ContentType.text t) →
      (s.cur_width ≤ s.cur_count + 1 →
        out.tree.depth = s.tree.depth + 1 ∧
        out.cur_width = s.next_width + (linksAt fetch s cur).length ∧
        out.next_width = 0 ∧ out.cur_count = 0) ∧
      (¬ s.cur_width ≤ s.cur_count + 1 →
        out.tree.depth = s.tree.depth ∧ out.cur_width = s.cur_width ∧
        out.next_width = s.next_width + (linksAt fetch s cur).length ∧
        out.cur_count = s.cur_count + 1)) := by
  unfold crawlStep at hout
  rw [hpop] at hout
  cases hf : fetch (s.tree.valueAt cur) with
  | failure =>
    simp [hf] at hout
  | success header body =>
    cases hc : ContentType.from_header_value header with
    | text t0 =>
      simp only [hf, hc] at hout
      constructor
      · intro str hcl
        simp [classifyAt, hf, hc] at hcl
      · intro t1 hcl
        constructor
        · intro hle
          rw [if_pos hle] at hout
          injection hout with h
          rw [← h]
          simp [linksAt, hf]
        · intro hnle
          rw [if_neg hnle] at hout
          injection hout with h
          rw [← h]
          simp [linksAt, hf]
    | other str0 =>
      simp only [hf, hc] at hout
      injection hout with h
      constructor
      · intro str hcl
        rw [← h]
        simp
      · intro t1 hcl
        simp [classifyAt, hf, hc] at hcl
    | unknown =>
      simp [hf, hc] at hout

/-- Witness for C5 amended: the `Other` clause at the concrete
level-accounting state. -/
theorem c5_level_accounting_amended_witness :
    stateOtherCT1.tree.depth = stateOtherCT.tree.depth ∧
    stateOtherCT1.cur_width = stateOtherCT.cur_width ∧
    stateOtherCT1.next_width = stateOtherCT.next_width ∧
    stateOtherCT1.cur_count = stateOtherCT.cur_count + 1 :=
  (c5_level_accounting_amended fetchOtherCT stateOtherCT 2
      { items := [], length := 0 } rfl stateOtherCT1 (by decide)).1
    ("application/json") (by decide)

end Rget
